import Mathlib

/-!
# Verification of the glyph overlap detector

A shallow embedding of `src/main.rs` (the `glyph_overlaps` tool), which decides, per glyph,
whether the nonzero and even-odd fill rules disagree on the glyph's outline.

Modelling conventions:
* `f64` coordinates are modelled as exact rationals (the type `Q` below); all concrete
  inputs used in the theorems have small coordinates where `f64` arithmetic is exact.
* Rust's `as i32` / `as u32` casts are truncation toward zero (saturating at `0` for
  negative values in the `u32` case); all values cast in this program are integral.
* Rust's `%` on `i32` is truncated remainder, i.e. `Int.tmod`.
* Code that `panic!`s is embedded in `Except String`, with the panic message as the error.
* Functionality provided by external crates (`kurbo` geometry queries, the `fontir` path
  builder, the `resvg`/`tiny-skia` renderer, `norad` file parsing) is not part of this
  repository's sources; each such definition is modelled from the spec and carries a
  doc comment saying so.
-/

set_option linter.unusedVariables false

/-! ## Exact rational coordinates

`Q` is an exact fraction type with positive denominator, not kept in lowest terms, so that
every arithmetic operation reduces to integer arithmetic (and hence evaluates inside the
kernel). `Q.toRat` interprets it in `ℚ`; all order-theoretic reasoning is carried out
through that interpretation. -/

structure Q where
  num : ℤ
  den : ℤ
  den_pos : 0 < den

instance (n : ℕ) : OfNat Q n := ⟨⟨n, 1, one_pos⟩⟩

def Q.ofInt (n : ℤ) : Q := ⟨n, 1, one_pos⟩

def Q.add (a b : Q) : Q :=
  ⟨a.num * b.den + b.num * a.den, a.den * b.den, mul_pos a.den_pos b.den_pos⟩

def Q.neg (a : Q) : Q := ⟨-a.num, a.den, a.den_pos⟩

def Q.sub (a b : Q) : Q :=
  ⟨a.num * b.den - b.num * a.den, a.den * b.den, mul_pos a.den_pos b.den_pos⟩

def Q.mul (a b : Q) : Q := ⟨a.num * b.num, a.den * b.den, mul_pos a.den_pos b.den_pos⟩

instance : Add Q := ⟨Q.add⟩
instance : Neg Q := ⟨Q.neg⟩
instance : Sub Q := ⟨Q.sub⟩
instance : Mul Q := ⟨Q.mul⟩

instance : LE Q := ⟨fun a b => a.num * b.den ≤ b.num * a.den⟩
instance : LT Q := ⟨fun a b => a.num * b.den < b.num * a.den⟩

instance (a b : Q) : Decidable (a ≤ b) := Int.decLe _ _
instance (a b : Q) : Decidable (a < b) := Int.decLt _ _

instance : Min Q := ⟨fun a b => if a ≤ b then a else b⟩
instance : Max Q := ⟨fun a b => if a ≤ b then b else a⟩

/-- Mathematical floor of a `Q` value, as an integer (`Int.ediv` is floor division for a
positive divisor). -/
def Q.floorInt (a : Q) : ℤ := a.num.ediv a.den

/-- Mathematical ceiling of a `Q` value, as an integer. -/
def Q.ceilInt (a : Q) : ℤ := -((-a.num).ediv a.den)

/-- Rust `f64::floor` (result stays a float, here a `Q`). -/
def Q.floor (a : Q) : Q := Q.ofInt a.floorInt

/-- Rust `f64::ceil`. -/
def Q.ceil (a : Q) : Q := Q.ofInt a.ceilInt

/-- Rust `f64 as i32`: truncation toward zero (all values cast in this program are
integral and in range, so `i32` saturation never occurs). -/
def Q.asI32 (a : Q) : ℤ := if 0 ≤ a.num then a.floorInt else a.ceilInt

/-- Rust `f64 as u32`: truncation toward zero, saturating at `0` for negative input. -/
def Q.asU32 (a : Q) : ℕ := a.asI32.toNat

instance : DecidableEq Q := fun a b =>
  if h : a.num = b.num ∧ a.den = b.den then
    isTrue (by cases a; cases b; cases h.1; cases h.2; rfl)
  else
    isFalse (by intro he; cases he; exact h ⟨rfl, rfl⟩)

/-- Interpretation of `Q` in `ℚ`; every order-theoretic fact about `Q` is proved through
this map. -/
def Q.toRat (a : Q) : ℚ := (a.num : ℚ) / (a.den : ℚ)

namespace Q

theorem den_cast_pos (a : Q) : (0 : ℚ) < (a.den : ℚ) := by
  exact_mod_cast a.den_pos

theorem le_iff {a b : Q} : a ≤ b ↔ a.toRat ≤ b.toRat := by
  show a.num * b.den ≤ b.num * a.den ↔ _
  rw [toRat, toRat, div_le_div_iff₀ a.den_cast_pos b.den_cast_pos]
  exact_mod_cast Iff.rfl

theorem lt_iff {a b : Q} : a < b ↔ a.toRat < b.toRat := by
  show a.num * b.den < b.num * a.den ↔ _
  rw [toRat, toRat, div_lt_div_iff₀ a.den_cast_pos b.den_cast_pos]
  exact_mod_cast Iff.rfl

theorem toRat_add (a b : Q) : (a + b).toRat = a.toRat + b.toRat := by
  have ha : (a.den : ℚ) ≠ 0 := ne_of_gt a.den_cast_pos
  have hb : (b.den : ℚ) ≠ 0 := ne_of_gt b.den_cast_pos
  show ((a.num * b.den + b.num * a.den : ℤ) : ℚ) / ((a.den * b.den : ℤ) : ℚ) = _
  rw [toRat, toRat, div_add_div _ _ ha hb]
  push_cast
  congr 1
  ring

theorem toRat_sub (a b : Q) : (a - b).toRat = a.toRat - b.toRat := by
  have ha : (a.den : ℚ) ≠ 0 := ne_of_gt a.den_cast_pos
  have hb : (b.den : ℚ) ≠ 0 := ne_of_gt b.den_cast_pos
  show ((a.num * b.den - b.num * a.den : ℤ) : ℚ) / ((a.den * b.den : ℤ) : ℚ) = _
  rw [toRat, toRat, div_sub_div _ _ ha hb]
  push_cast
  congr 1
  ring

theorem toRat_neg (a : Q) : (-a).toRat = -a.toRat := by
  show ((-a.num : ℤ) : ℚ) / (a.den : ℚ) = _
  rw [toRat]
  push_cast
  ring

theorem toRat_mul (a b : Q) : (a * b).toRat = a.toRat * b.toRat := by
  show ((a.num * b.num : ℤ) : ℚ) / ((a.den * b.den : ℤ) : ℚ) = _
  rw [toRat, toRat, div_mul_div_comm]
  push_cast
  rfl

theorem toRat_ofInt (n : ℤ) : (Q.ofInt n).toRat = (n : ℚ) := by
  show (n : ℚ) / ((1 : ℤ) : ℚ) = _
  norm_num

theorem toRat_ofNat (n : ℕ) : (OfNat.ofNat n : Q).toRat = (n : ℚ) := by
  show ((n : ℤ) : ℚ) / ((1 : ℤ) : ℚ) = _
  norm_num

theorem toRat_min (a b : Q) : (min a b).toRat = min a.toRat b.toRat := by
  show (if a ≤ b then a else b).toRat = _
  by_cases h : a ≤ b
  · rw [if_pos h, min_eq_left (le_iff.mp h)]
  · rw [if_neg h, min_eq_right (le_of_not_le (fun hc => h (le_iff.mpr hc)))]

theorem toRat_max (a b : Q) : (max a b).toRat = max a.toRat b.toRat := by
  show (if a ≤ b then b else a).toRat = _
  by_cases h : a ≤ b
  · rw [if_pos h, max_eq_right (le_iff.mp h)]
  · rw [if_neg h, max_eq_left (le_of_not_le (fun hc => h (le_iff.mpr hc)))]

theorem floorInt_eq (a : Q) : a.floorInt = ⌊a.toRat⌋ := by
  have hd : a.den ≠ 0 := ne_of_gt a.den_pos
  have h : a.den * a.num.ediv a.den + a.num.emod a.den = a.num :=
    Int.ediv_add_emod a.num a.den
  have hr0 : 0 ≤ a.num.emod a.den := Int.emod_nonneg a.num hd
  have hr1 : a.num.emod a.den < a.den := Int.emod_lt_of_pos a.num a.den_pos
  have hq : (a.num : ℚ) = (a.den : ℚ) * (a.num.ediv a.den : ℚ) + (a.num.emod a.den : ℚ) := by
    exact_mod_cast h.symm
  have hr0q : (0 : ℚ) ≤ (a.num.emod a.den : ℚ) := by exact_mod_cast hr0
  have hr1q : (a.num.emod a.den : ℚ) < (a.den : ℚ) := by exact_mod_cast hr1
  have hfl : a.floorInt = a.num.ediv a.den := rfl
  symm
  rw [Int.floor_eq_iff]
  constructor
  · rw [toRat, le_div_iff₀ a.den_cast_pos, hfl, hq]
    nlinarith [hr0q]
  · rw [toRat, div_lt_iff₀ a.den_cast_pos, hfl, hq]
    nlinarith [hr1q]

theorem ceilInt_eq (a : Q) : a.ceilInt = ⌈a.toRat⌉ := by
  have h1 : a.ceilInt = -((Q.neg a).floorInt) := rfl
  rw [h1, floorInt_eq, show (Q.neg a).toRat = -a.toRat from toRat_neg a, Int.floor_neg,
    neg_neg]

theorem toRat_floor (a : Q) : a.floor.toRat = (⌊a.toRat⌋ : ℚ) := by
  rw [floor, toRat_ofInt, floorInt_eq]

theorem toRat_ceil (a : Q) : a.ceil.toRat = (⌈a.toRat⌉ : ℚ) := by
  rw [ceil, toRat_ofInt, ceilInt_eq]

theorem asI32_ofInt (n : ℤ) : (Q.ofInt n).asI32 = n := by
  show (if 0 ≤ n then (Q.ofInt n).floorInt else (Q.ofInt n).ceilInt) = n
  have hf : (Q.ofInt n).floorInt = n := by
    rw [floorInt_eq, toRat_ofInt, Int.floor_intCast]
  have hc : (Q.ofInt n).ceilInt = n := by
    rw [ceilInt_eq, toRat_ofInt, Int.ceil_intCast]
  by_cases h : 0 ≤ n
  · rw [if_pos h, hf]
  · rw [if_neg h, hc]

theorem toRat_eq_num_div_den (a : Q) : a.toRat = (a.num : ℚ) / (a.den : ℚ) := rfl

end Q

example : ((2 : Q) * 3 + 1 - 8 ≤ 0) := by decide
example : ((⟨-3, 10, by decide⟩ : Q).floorInt = -1) := by decide
example : ((⟨-3, 10, by decide⟩ : Q).ceilInt = 0) := by decide
example : ((⟨-3, 10, by decide⟩ : Q).asI32 = 0) := by decide
example : ((⟨33, 10, by decide⟩ : Q).ceilInt = 4) := by decide
example : (min (2 : Q) 3 = 2) := by decide

/-! ## Geometry data model (kurbo types used by `main.rs`) -/

/-- A 2D point with exact coordinates (kurbo `Point`, idealizing `f64`). -/
structure Pt where
  x : Q
  y : Q
deriving DecidableEq

/-- kurbo `Rect`: the four stored coordinates, in `Rect::new(x0, y0, x1, y1)` order. -/
structure Rect where
  x0 : Q
  y0 : Q
  x1 : Q
  y1 : Q
deriving DecidableEq

/-- kurbo `Rect::min_x`. -/
def Rect.minX (r : Rect) : Q := min r.x0 r.x1

/-- kurbo `Rect::max_x`. -/
def Rect.maxX (r : Rect) : Q := max r.x0 r.x1

/-- kurbo `Rect::min_y`. -/
def Rect.minY (r : Rect) : Q := min r.y0 r.y1

/-- kurbo `Rect::max_y`. -/
def Rect.maxY (r : Rect) : Q := max r.y0 r.y1

/-- kurbo `Rect::width` (`x1 - x0`; may be negative for an unsorted rect). -/
def Rect.width (r : Rect) : Q := r.x1 - r.x0

/-- kurbo `Rect::height`. -/
def Rect.height (r : Rect) : Q := r.y1 - r.y0

/-- kurbo `PathEl`: one element of a `BezPath`. -/
inductive PathEl where
  | moveTo (p : Pt)
  | lineTo (p : Pt)
  | quadTo (c e : Pt)
  | curveTo (c1 c2 e : Pt)
  | closePath
deriving DecidableEq

/-- kurbo `BezPath`: an ordered sequence of path elements. -/
abbrev BezPath := List PathEl

/-- The control and end points mentioned by one path element. -/
def PathEl.pts : PathEl → List Pt
  | .moveTo p => [p]
  | .lineTo p => [p]
  | .quadTo c e => [c, e]
  | .curveTo c1 c2 e => [c1, c2, e]
  | .closePath => []

/-- Every control and end point mentioned by a path, in order. -/
def BezPath.points (p : BezPath) : List Pt :=
  p.foldr (fun el acc => el.pts ++ acc) []

/-- Modelled from the spec: kurbo's `Shape::bounding_box` for `BezPath` is external to this
repository; per §4.2 the Bounding Box Engine computes "the tight min/max extents over every
Segment's control and end points of a Path". (For the polyline paths used as concrete
inputs below this agrees exactly with kurbo, which uses exact curve extrema.) An empty
path yields the zero rect. -/
def bounding_box (p : BezPath) : Rect :=
  match BezPath.points p with
  | [] => ⟨0, 0, 0, 0⟩
  | q :: qs =>
    ⟨qs.foldl (fun m r => min m r.x) q.x,
     qs.foldl (fun m r => min m r.y) q.y,
     qs.foldl (fun m r => max m r.x) q.x,
     qs.foldl (fun m r => max m r.y) q.y⟩

/-- Modelled from the spec: the Winding Evaluator (§4.3) is kurbo's `winding`, external to
this repository. Contribution of the directed line segment `a → b` to the winding number at
`p`, counting crossings of the horizontal ray from `p` toward `+∞`, with the consistent
half-open tie-break the spec requires (`a.y ≤ p.y < b.y` upward crossing counted `+1` when
`p` is left of the segment, `b.y ≤ p.y < a.y` downward crossing counted `-1` when `p` is
right of it). -/
def segWinding (p a b : Pt) : ℤ :=
  let cross := (b.x - a.x) * (p.y - a.y) - (p.x - a.x) * (b.y - a.y)
  if a.y ≤ p.y ∧ p.y < b.y then (if 0 < cross then 1 else 0)
  else if b.y ≤ p.y ∧ p.y < a.y then (if cross < 0 then -1 else 0)
  else 0

/-- Modelled from the spec: traversal of a path's elements accumulating segment winding
contributions; curved segments are flattened to their control polygons (an instance of the
spec's "flattening curved segments to line approximations" — exact for the polyline inputs
used below). Arguments: query point, current subpath start, current point, remaining
elements. -/
def windingEls (p : Pt) : Pt → Pt → BezPath → ℤ
  | _, _, [] => 0
  | _, _, .moveTo q :: rest => windingEls p q q rest
  | start, cur, .lineTo q :: rest => segWinding p cur q + windingEls p start q rest
  | start, cur, .quadTo c e :: rest =>
    segWinding p cur c + segWinding p c e + windingEls p start e rest
  | start, cur, .curveTo c1 c2 e :: rest =>
    segWinding p cur c1 + segWinding p c1 c2 + segWinding p c2 e + windingEls p start e rest
  | start, cur, .closePath :: rest => segWinding p cur start + windingEls p start start rest

/-- Modelled from the spec: `winding(Path, Point) -> WindingNumber` (§4.3). A well-formed
`BezPath` starts with a `MoveTo`; a path that does not is given winding 0. -/
def BezPath.winding (path : BezPath) (p : Pt) : ℤ :=
  match path with
  | .moveTo q :: rest => windingEls p q q rest
  | _ => 0

/-- `Glyph` (main.rs lines 11-16): name, source file, and the outline. -/
structure Glyph where
  name : String
  source : String
  bezpath : BezPath
deriving DecidableEq

deriving instance DecidableEq for Except

/-- `n` consecutive integers starting at `lo`. -/
def intRangeAux (lo : ℤ) : ℕ → List ℤ
  | 0 => []
  | n + 1 => lo :: intRangeAux (lo + 1) n

/-- The integer list `[lo, lo+1, ..., hi-1]`, i.e. Rust's `lo..hi` iteration order. -/
def intRange (lo hi : ℤ) : List ℤ := intRangeAux lo (hi - lo).toNat

/-- `OverlapDetection::compute_winding_a_lot` (main.rs lines 153-174): floor/ceil the tight
bounding box, then test every integer point `x` in `min_x as i32 .. max_x as i32`, `y` in
`min_y as i32 .. max_y as i32` for a mismatch between `winding != 0` and
`winding % 2 == 1`, short-circuiting on the first mismatch (the loops with early `return`
become `List.any`). -/
def compute_winding_a_lot (glyph : Glyph) : Bool :=
  let bbox := bounding_box glyph.bezpath
  let bbox : Rect := ⟨bbox.minX.floor, bbox.minY.floor, bbox.maxX.ceil, bbox.maxY.ceil⟩
  (intRange bbox.minX.asI32 bbox.maxX.asI32).any fun x =>
    (intRange bbox.minY.asI32 bbox.maxY.asI32).any fun y =>
      let winding := glyph.bezpath.winding ⟨Q.ofInt x, Q.ofInt y⟩
      let nonzero := winding != 0
      let evenodd := Int.tmod winding 2 == 1
      nonzero != evenodd

/-- The mismatch test applied by `compute_winding_a_lot` at one grid point. -/
def windingMismatch (path : BezPath) (x y : ℤ) : Bool :=
  let winding := path.winding ⟨Q.ofInt x, Q.ofInt y⟩
  (winding != 0) != (Int.tmod winding 2 == 1)

/-- The grid of integer points `compute_winding_a_lot` samples, in iteration order. -/
def sampledPoints (glyph : Glyph) : List (ℤ × ℤ) :=
  let bbox := bounding_box glyph.bezpath
  let bbox : Rect := ⟨bbox.minX.floor, bbox.minY.floor, bbox.maxX.ceil, bbox.maxY.ceil⟩
  (intRange bbox.minX.asI32 bbox.maxX.asI32).flatMap fun x =>
    (intRange bbox.minY.asI32 bbox.maxY.asI32).map fun y => (x, y)

/-- A counter-clockwise test square, `(0,0) → (3,0) → (3,3) → (0,3) → close`. -/
def ccwSquare : Glyph :=
  ⟨"ccw", "ccw.glif",
   [.moveTo ⟨0, 0⟩, .lineTo ⟨3, 0⟩, .lineTo ⟨3, 3⟩, .lineTo ⟨0, 3⟩, .closePath]⟩

/-- A clockwise test square, `(0,0) → (0,3) → (3,3) → (3,0) → close`. -/
def cwSquare : Glyph :=
  ⟨"cw", "cw.glif",
   [.moveTo ⟨0, 0⟩, .lineTo ⟨0, 3⟩, .lineTo ⟨3, 3⟩, .lineTo ⟨3, 0⟩, .closePath]⟩

example : ccwSquare.bezpath.winding ⟨1, 1⟩ = 1 := by decide
example : cwSquare.bezpath.winding ⟨1, 1⟩ = -1 := by decide
example : compute_winding_a_lot ccwSquare = false := by decide
example : compute_winding_a_lot cwSquare = true := by decide
example : sampledPoints ccwSquare =
    [(0,0),(0,1),(0,2),(1,0),(1,1),(1,2),(2,0),(2,1),(2,2)] := by decide

/-! ## The raster pipeline (`create_svg`, `render_no_aa`, `image_diff`) -/

/-- resvg/usvg `FillRule`. -/
inductive FillRule where
  | evenOdd
  | nonZero
deriving DecidableEq

/-- Modelled from the spec: Rust's `Display` for `f64` is external; numeric formatting is
modelled as a deterministic rendering of the exact value's representation. -/
def Q.fmt (a : Q) : String := toString a.num ++ "/" ++ toString a.den

/-- Modelled from the spec: kurbo `BezPath::to_svg` (external) renders one element as SVG
path data. -/
def PathEl.toSvgStr : PathEl → String
  | .moveTo p => "M" ++ p.x.fmt ++ " " ++ p.y.fmt
  | .lineTo p => "L" ++ p.x.fmt ++ " " ++ p.y.fmt
  | .quadTo c e => "Q" ++ c.x.fmt ++ " " ++ c.y.fmt ++ " " ++ e.x.fmt ++ " " ++ e.y.fmt
  | .curveTo c1 c2 e =>
    "C" ++ c1.x.fmt ++ " " ++ c1.y.fmt ++ " " ++ c2.x.fmt ++ " " ++ c2.y.fmt ++ " " ++
      e.x.fmt ++ " " ++ e.y.fmt
  | .closePath => "Z"

/-- Modelled from the spec: kurbo `BezPath::to_svg` (external). -/
def bezPathToSvg (p : BezPath) : String :=
  String.intercalate " " (p.map PathEl.toSvgStr)

/-- The literal `0.1` (exact here; the `f64` value is within `2⁻⁵⁴` of it, and no concrete
input below is close enough to a rounding boundary for that to matter). -/
def qTenth : Q := ⟨1, 10, by decide⟩

/-- `Glyph::create_svg` (main.rs lines 65-93): margin-expanded, floor/ceil-rounded viewbox
around the tight bounding box, and the SVG document string (note the source writes the
four viewbox numbers as `min_x min_y max_x max_y`). -/
def create_svg (glyph : Glyph) (fill_rule : FillRule) : Rect × String :=
  let bbox := bounding_box glyph.bezpath
  let margin := max bbox.width bbox.height * qTenth
  let viewbox : Rect :=
    ⟨(bbox.minX - margin).floor, (bbox.minY - margin).floor,
     (bbox.maxX + margin).ceil, (bbox.maxY + margin).ceil⟩
  let svg := "<svg viewBox=\"" ++
    (viewbox.minX.fmt ++ " " ++ viewbox.minY.fmt ++ " " ++
      viewbox.maxX.fmt ++ " " ++ viewbox.maxY.fmt) ++
    "\" xmlns=\"http://www.w3.org/2000/svg\">" ++
    "<path fill=\"gray\" fill-rule=\"" ++
    (match fill_rule with
      | FillRule.evenOdd => "evenodd"
      | FillRule.nonZero => "nonzero") ++
    "\" d=\"" ++ bezPathToSvg glyph.bezpath ++ "\"/></svg>"
  (viewbox, svg)

/-- tiny-skia `PremultipliedColorU8` (an RGBA pixel). -/
structure Pixel where
  r : ℕ
  g : ℕ
  b : ℕ
  alpha : ℕ
deriving DecidableEq

/-- tiny-skia `Pixmap` (external, modelled from its contract): dimensions plus the pixel
buffer (`pixels()`). -/
structure Pixmap where
  width : ℕ
  height : ℕ
  pixels : List Pixel
deriving DecidableEq

/-- tiny-skia `Pixmap::new` (external, modelled from its contract): `None` on a zero
dimension, otherwise a transparent buffer of exactly `w*h` pixels. -/
def Pixmap.new (w h : ℕ) : Option Pixmap :=
  if w = 0 ∨ h = 0 then none
  else some ⟨w, h, List.replicate (w * h) ⟨0, 0, 0, 0⟩⟩

/-- Modelled from the spec (§6 Renderer): the external rasterizer (`usvg::Tree::from_str`
plus `resvg::render`) consumes the SVG document and draws into the destination pixmap,
returning the drawn pixmap. The spec requires it to return a buffer "of exactly the
requested dimensions"; that contract is an explicit hypothesis where a theorem needs it. -/
abbrev Renderer := String → Pixmap → Pixmap

/-- `Glyph::render_no_aa` (main.rs lines 95-119): build the SVG, create a pixmap of the
viewbox's pixel dimensions (`width as u32`, `height as u32`; the `None` of `Pixmap::new`
panics "Unable to create pixmap"), render into it. The debug-image save has no effect on
the value and is not modelled. -/
def render_no_aa (render : Renderer) (glyph : Glyph) (fill_rule : FillRule) :
    Except String Pixmap :=
  let (viewbox, svg) := create_svg glyph fill_rule
  match Pixmap.new viewbox.width.asU32 viewbox.height.asU32 with
  | none => Except.error "Unable to create pixmap"
  | some pixmap => Except.ok (render svg pixmap)

/-- The marking loop of `image_diff` (main.rs lines 190-199): walk the zipped pixel
buffers; at each differing pair set the discrepancy flag and overwrite the even-odd pixel
with `pink`. Returns the flag and the recolored even-odd buffer (the zip stops at the
shorter buffer, leaving any remainder unmodified, exactly as `iter().zip`). -/
def markDiffs (pink : Pixel) : List Pixel → List Pixel → Bool × List Pixel
  | x :: xs, y :: ys =>
    let rest := markDiffs pink xs ys
    if x ≠ y then (true, pink :: rest.2) else (rest.1, x :: rest.2)
  | xs, _ => (false, xs)

/-- The pink sentinel `PremultipliedColorU8::from_rgba(255, 20, 147, 255).unwrap()`
(main.rs line 189). -/
def pinkPx : Pixel := ⟨255, 20, 147, 255⟩

/-- `OverlapDetection::image_diff` (main.rs lines 180-207), with the compile-time
`_SAVE_DEBUG_IMAGES` flag as a parameter: render both fill rules, panic on inconsistent
pixel counts, mark differing pixels pink over the even-odd mask, optionally keep the
marked mask as the debug artifact, and return the discrepancy flag. -/
def image_diff_impl (saveImages : Bool) (render : Renderer) (glyph : Glyph) :
    Except String (Bool × Option Pixmap) :=
  match render_no_aa render glyph FillRule.evenOdd with
  | Except.error e => Except.error e
  | Except.ok evenodd =>
    match render_no_aa render glyph FillRule.nonZero with
    | Except.error e => Except.error e
    | Except.ok nonzero =>
      if evenodd.pixels.length ≠ nonzero.pixels.length then
        Except.error "Inconsistent pixel count, seems very bad"
      else
        let res := markDiffs pinkPx evenodd.pixels nonzero.pixels
        Except.ok (res.1, if saveImages then some { evenodd with pixels := res.2 } else none)

/-- `_SAVE_DEBUG_IMAGES` (main.rs line 8). -/
def SAVE_DEBUG_IMAGES : Bool := true

/-- `OverlapDetection::image_diff`'s returned boolean. -/
def image_diff (render : Renderer) (glyph : Glyph) : Except String Bool :=
  match image_diff_impl SAVE_DEBUG_IMAGES render glyph with
  | Except.error e => Except.error e
  | Except.ok res => Except.ok res.1

/-- `OverlapDetection` (main.rs lines 133-138). -/
inductive OverlapDetection where
  | computeWindingALot
  | imageDiff
  | faceGraph

/-- `OverlapDetection::has_fill_rule_discrepency` (main.rs lines 141-147); the `FaceGraph`
arm is `todo!`, i.e. a panic. -/
def has_fill_rule_discrepency (d : OverlapDetection) (render : Renderer) (glyph : Glyph) :
    Except String Bool :=
  match d with
  | OverlapDetection.computeWindingALot => Except.ok (compute_winding_a_lot glyph)
  | OverlapDetection.imageDiff => image_diff render glyph
  | OverlapDetection.faceGraph =>
    Except.error "not yet implemented: Play with path-bool, DualGraph has the answer!"

/-- `_OVERLAP_DETECTION` (main.rs line 9). -/
def OVERLAP_DETECTION : OverlapDetection := OverlapDetection.imageDiff

/-! ## Path construction (`to_bezpath`, `from_glif`) and the batch driver (`main`) -/

/-- The path-builder error taxonomy (§7 of the spec; fontir's error type is external). -/
inductive BuilderError where
  | malformedContour
  | unterminatedContour
  | emptyGlyph
deriving DecidableEq

/-- Modelled from the spec: the `Display` of the external fontir error type is rendered as
the §7 taxonomy name. -/
def BuilderError.message : BuilderError → String
  | BuilderError.malformedContour => "MalformedContour"
  | BuilderError.unterminatedContour => "UnterminatedContour"
  | BuilderError.emptyGlyph => "EmptyGlyph"

/-- Modelled from the spec (§4.1): the state of fontir's `GlyphPathBuilder` (external):
elements of completed subpaths, the open subpath (start point, current point, elements so
far), and the buffered off-curve points. The builder's name and capacity arguments carry
no semantics and are dropped. -/
structure BuilderState where
  done : List PathEl
  cur : Option (Pt × Pt × List PathEl)
  pending : List Pt

/-- Modelled from the spec (§4.1): `Move(p)` opens a new Subpath at `p`; fails with
`UnterminatedContour` if a Subpath is already open. -/
def BuilderState.move_to (st : BuilderState) (p : Pt) : Except BuilderError BuilderState :=
  match st.cur with
  | some _ => Except.error BuilderError.unterminatedContour
  | none => Except.ok { st with cur := some (p, p, [PathEl.moveTo p]) }

/-- Modelled from the spec (§4.1): `Line(p)` appends a LineTo segment to the open Subpath
(the spec presupposes one is open; without one this is `MalformedContour`). -/
def BuilderState.line_to (st : BuilderState) (p : Pt) : Except BuilderError BuilderState :=
  match st.cur with
  | none => Except.error BuilderError.malformedContour
  | some (s, _, els) => Except.ok { st with cur := some (s, p, els ++ [PathEl.lineTo p]) }

/-- Modelled from the spec (§4.1): `OffCurve(p)` buffers a pending control point. -/
def BuilderState.offcurve (st : BuilderState) (p : Pt) : Except BuilderError BuilderState :=
  Except.ok { st with pending := st.pending ++ [p] }

/-- Modelled from the spec (§4.1): `CubicEnd(p)` requires exactly two buffered off-curve
points, consumed as the controls of a CubicTo; any other buffered count (or no open
Subpath) is `MalformedContour`. -/
def BuilderState.curve_to (st : BuilderState) (p : Pt) : Except BuilderError BuilderState :=
  match st.cur, st.pending with
  | some (s, _, els), [c1, c2] =>
    Except.ok { done := st.done, cur := some (s, p, els ++ [PathEl.curveTo c1 c2 p]),
                pending := [] }
  | _, _ => Except.error BuilderError.malformedContour

/-- One half `(1 : Q)/2`, for implied quadratic midpoints. -/
def qHalf : Q := ⟨1, 2, by decide⟩

/-- Modelled from the spec (§4.1): quadratic emission — for each pair of consecutive
off-curve points synthesize the implied on-curve midpoint (arithmetic mean) and emit a
QuadTo ending there with the first as control; the final off-curve point emits a QuadTo
ending at `p`. -/
def quadEls (p : Pt) : List Pt → List PathEl
  | [] => []
  | [c] => [PathEl.quadTo c p]
  | c1 :: c2 :: rest =>
    PathEl.quadTo c1 ⟨(c1.x + c2.x) * qHalf, (c1.y + c2.y) * qHalf⟩ :: quadEls p (c2 :: rest)

/-- Modelled from the spec (§4.1): `QuadEnd(p)` consumes the buffered off-curve points as
in `quadEls`; with zero buffered points it is "treated as an empty no-op"; without an open
Subpath it is `MalformedContour`. -/
def BuilderState.qcurve_to (st : BuilderState) (p : Pt) : Except BuilderError BuilderState :=
  match st.cur with
  | none => Except.error BuilderError.malformedContour
  | some (s, _, els) =>
    match st.pending with
    | [] => Except.ok st
    | offs =>
      Except.ok { done := st.done, cur := some (s, p, els ++ quadEls p offs), pending := [] }

/-- Modelled from the spec (§4.1): `end_path()` closes the open Subpath back to its start
point (a `ClosePath` element, which draws the implicit closing line when needed), fails
with `UnterminatedContour` if no Subpath is open and with `MalformedContour` if off-curve
points remain unconsumed. -/
def BuilderState.end_path (st : BuilderState) : Except BuilderError BuilderState :=
  match st.cur with
  | none => Except.error BuilderError.unterminatedContour
  | some (s, c, els) =>
    match st.pending with
    | [] => Except.ok { done := st.done ++ els ++ [PathEl.closePath], cur := none,
                        pending := [] }
    | _ => Except.error BuilderError.malformedContour

/-- Modelled from the spec (§4.1): `build()` concatenates all completed Subpaths, failing
with `EmptyGlyph` if none were completed. -/
def BuilderState.build (st : BuilderState) : Except BuilderError BezPath :=
  if st.done = [] then Except.error BuilderError.emptyGlyph else Except.ok st.done

/-- norad `PointType`. -/
inductive PointType where
  | move
  | line
  | qcurve
  | curve
  | offCurve
deriving DecidableEq

/-- norad contour point (the coordinate and type fields `to_bezpath` reads). -/
structure GlifPoint where
  x : Q
  y : Q
  typ : PointType
deriving DecidableEq

/-- The dispatch of `to_bezpath`'s inner loop (main.rs lines 220-228). -/
def applyNode (st : BuilderState) (node : GlifPoint) : Except BuilderError BuilderState :=
  match node.typ with
  | PointType.move => st.move_to ⟨node.x, node.y⟩
  | PointType.line => st.line_to ⟨node.x, node.y⟩
  | PointType.qcurve => st.qcurve_to ⟨node.x, node.y⟩
  | PointType.curve => st.curve_to ⟨node.x, node.y⟩
  | PointType.offCurve => st.offcurve ⟨node.x, node.y⟩

/-- One contour of `to_bezpath`'s outer loop (main.rs lines 219-233): all points, then
`end_path()`. -/
def applyContour (st : BuilderState) (contour : List GlifPoint) :
    Except BuilderError BuilderState := do
  let st ← contour.foldlM applyNode st
  st.end_path

/-- `ToBezPath::to_bezpath` (main.rs lines 216-238). Each `unwrap_or_else` panic message is
kept; since the first panic aborts, mapping the first error of the fold gives the same
observable message. -/
def to_bezpath (contours : List (List GlifPoint)) (glyph_name : String) :
    Except String BezPath :=
  match contours.foldlM applyContour ⟨[], none, []⟩ with
  | Except.error e =>
    Except.error ("Error making BezPath for " ++ glyph_name ++ ": " ++ e.message)
  | Except.ok st =>
    match st.build with
    | Except.error e =>
      Except.error ("Unable to create BezPath for " ++ glyph_name ++ ": " ++ e.message)
    | Except.ok bp => Except.ok bp

/-- norad `Glyph` (external parse result): the fields `main.rs` reads. -/
structure Glif where
  name : String
  contours : List (List GlifPoint)

/-- A `.glif` file: its path and its parsed content (`norad::Glyph::load` is external;
its I/O and parse failures are out of scope per §6, so the content is given parsed). -/
structure GlifFile where
  path : String
  glif : Glif

/-- kurbo `Affine::FLIP_Y` applied to a point. -/
def flipY (p : Pt) : Pt := ⟨p.x, -p.y⟩

/-- Apply a point map to a path element (kurbo `apply_affine`). -/
def PathEl.mapPts (f : Pt → Pt) : PathEl → PathEl
  | PathEl.moveTo p => PathEl.moveTo (f p)
  | PathEl.lineTo p => PathEl.lineTo (f p)
  | PathEl.quadTo c e => PathEl.quadTo (f c) (f e)
  | PathEl.curveTo c1 c2 e => PathEl.curveTo (f c1) (f c2) (f e)
  | PathEl.closePath => PathEl.closePath

/-- `Glyph::from_glif` (main.rs lines 29-39): build the path from the contours, apply
`FLIP_Y`, record name and source. -/
def from_glif (file : String) (glif : Glif) : Except String Glyph :=
  match to_bezpath glif.contours glif.name with
  | Except.error e => Except.error e
  | Except.ok bezpath =>
    Except.ok ⟨glif.name, file, bezpath.map (PathEl.mapPts flipY)⟩

/-- `Glyph::from_glif_file` (main.rs lines 41-45), with `norad` loading modelled as the
already-parsed `GlifFile` content. -/
def from_glif_file (file : GlifFile) : Except String Glyph :=
  from_glif file.path file.glif

/-- The glyph-loading phase of `main` (main.rs lines 244-248) for `.glif` arguments (the
`.designspace` and `.ufo` arms only dispatch external parsing around `from_glif` and are
not modelled); the first panic aborts the whole run. -/
def loadAll : List GlifFile → Except String (List Glyph)
  | [] => Except.ok []
  | f :: fs =>
    match from_glif_file f with
    | Except.error e => Except.error e
    | Except.ok g =>
      match loadAll fs with
      | Except.error e => Except.error e
      | Except.ok gs => Except.ok (g :: gs)

/-- The detection loop of `main` (main.rs lines 252-256): run the configured detector on
every glyph, collecting the sources reported as needing the overlap flag; a panic (error)
aborts the whole run. -/
def reportLoop (render : Renderer) : List Glyph → Except String (List String)
  | [] => Except.ok []
  | g :: gs =>
    match has_fill_rule_discrepency OVERLAP_DETECTION render g with
    | Except.error e => Except.error e
    | Except.ok b =>
      match reportLoop render gs with
      | Except.error e => Except.error e
      | Except.ok rest => Except.ok (if b then g.source :: rest else rest)

/-- `main` (main.rs lines 241-257) restricted to `.glif` arguments: load every glyph, then
run detection over the batch. -/
def runBatch (render : Renderer) (files : List GlifFile) : Except String (List String) :=
  match loadAll files with
  | Except.error e => Except.error e
  | Except.ok glyphs => reportLoop render glyphs

/-- A renderer that draws nothing: it returns the destination pixmap untouched. -/
def idRenderer : Renderer := fun _ pm => pm

/-- A well-formed square glif: `Move(0,0), Line(3,0), Line(3,3), Line(0,3)`. -/
def goodGlifFile : GlifFile :=
  ⟨"good.glif",
   ⟨"good",
    [[⟨0, 0, PointType.move⟩, ⟨3, 0, PointType.line⟩, ⟨3, 3, PointType.line⟩,
      ⟨0, 3, PointType.line⟩]]⟩⟩

/-- A malformed glif: a `CubicEnd` preceded by a single buffered off-curve point. -/
def badGlifFile : GlifFile :=
  ⟨"bad.glif",
   ⟨"bad",
    [[⟨0, 0, PointType.move⟩, ⟨1, 1, PointType.offCurve⟩, ⟨2, 2, PointType.curve⟩]]⟩⟩

example : (from_glif_file goodGlifFile).isOk = true := by decide
example : from_glif_file badGlifFile =
    Except.error "Error making BezPath for bad: MalformedContour" := by decide
example : runBatch idRenderer [goodGlifFile] = Except.ok [] := by decide
example : runBatch idRenderer [badGlifFile, goodGlifFile] =
    Except.error "Error making BezPath for bad: MalformedContour" := by decide

/-! ## Lemmas about the embedding -/

theorem mem_intRangeAux {x : ℤ} :
    ∀ (n : ℕ) (lo : ℤ), x ∈ intRangeAux lo n ↔ lo ≤ x ∧ x < lo + n := by
  intro n
  induction n with
  | zero =>
    intro lo
    simp only [intRangeAux, List.not_mem_nil, false_iff]
    omega
  | succ m ih =>
    intro lo
    simp only [intRangeAux, List.mem_cons, ih (lo + 1)]
    omega

theorem mem_intRange {lo hi x : ℤ} : x ∈ intRange lo hi ↔ lo ≤ x ∧ x < hi := by
  unfold intRange
  rw [mem_intRangeAux]
  omega

theorem any_flatMap {α β : Type _} (l : List α) (f : α → List β) (p : β → Bool) :
    ((l.flatMap f).any p) = l.any fun a => (f a).any p := by
  induction l with
  | nil => rfl
  | cons a l ih => simp [List.flatMap_cons, List.any_append, ih]

theorem any_map_eq {α β : Type _} (l : List α) (f : α → β) (p : β → Bool) :
    ((l.map f).any p) = l.any fun a => p (f a) := by
  induction l with
  | nil => rfl
  | cons a l ih => simp [List.any_cons, ih]

/-- `compute_winding_a_lot` is exactly the scan of `sampledPoints` for a winding
mismatch. -/
theorem compute_winding_eq_sampled (g : Glyph) :
    compute_winding_a_lot g =
      (sampledPoints g).any fun q => windingMismatch g.bezpath q.1 q.2 := by
  simp only [compute_winding_a_lot, sampledPoints, any_flatMap, any_map_eq]
  rfl

theorem foldl_min_le {α : Type _} (l : List α) (f : α → Q) (a : Q) :
    (l.foldl (fun m r => min m (f r)) a).toRat ≤ a.toRat := by
  induction l generalizing a with
  | nil => exact le_refl _
  | cons x xs ih =>
    refine le_trans (ih (min a (f x))) ?_
    rw [Q.toRat_min]
    exact min_le_left _ _

theorem foldl_min_le_mem {α : Type _} (l : List α) (f : α → Q) (x : α) :
    ∀ a : Q, x ∈ l → (l.foldl (fun m r => min m (f r)) a).toRat ≤ (f x).toRat := by
  induction l with
  | nil => intro a hx; cases hx
  | cons y ys ih =>
    intro a hx
    rcases List.mem_cons.mp hx with h | h
    · subst h
      refine le_trans (foldl_min_le ys f (min a (f x))) ?_
      rw [Q.toRat_min]
      exact min_le_right _ _
    · exact ih (min a (f y)) h

theorem le_foldl_max {α : Type _} (l : List α) (f : α → Q) (a : Q) :
    a.toRat ≤ (l.foldl (fun m r => max m (f r)) a).toRat := by
  induction l generalizing a with
  | nil => exact le_refl _
  | cons x xs ih =>
    refine le_trans ?_ (ih (max a (f x)))
    rw [Q.toRat_max]
    exact le_max_left _ _

theorem le_foldl_max_mem {α : Type _} (l : List α) (f : α → Q) (x : α) :
    ∀ a : Q, x ∈ l → (f x).toRat ≤ (l.foldl (fun m r => max m (f r)) a).toRat := by
  induction l with
  | nil => intro a hx; cases hx
  | cons y ys ih =>
    intro a hx
    rcases List.mem_cons.mp hx with h | h
    · subst h
      refine le_trans ?_ (le_foldl_max ys f (max a (f x)))
      rw [Q.toRat_max]
      exact le_max_right _ _
    · exact ih (max a (f y)) h

/-- The tight bounding box encloses every control and end point of the path. -/
theorem bounding_box_bounds (path : BezPath) (p : Pt) (hp : p ∈ path.points) :
    (bounding_box path).x0.toRat ≤ p.x.toRat ∧ p.x.toRat ≤ (bounding_box path).x1.toRat ∧
    (bounding_box path).y0.toRat ≤ p.y.toRat ∧ p.y.toRat ≤ (bounding_box path).y1.toRat := by
  rcases hq : BezPath.points path with _ | ⟨q, qs⟩
  · rw [hq] at hp
    cases hp
  · rw [hq] at hp
    simp only [bounding_box, hq]
    rcases List.mem_cons.mp hp with h | h
    · subst h
      exact ⟨foldl_min_le qs (fun r => r.x) p.x, le_foldl_max qs (fun r => r.x) p.x,
             foldl_min_le qs (fun r => r.y) p.y, le_foldl_max qs (fun r => r.y) p.y⟩
    · exact ⟨foldl_min_le_mem qs (fun r => r.x) p q.x h,
             le_foldl_max_mem qs (fun r => r.x) p q.x h,
             foldl_min_le_mem qs (fun r => r.y) p q.y h,
             le_foldl_max_mem qs (fun r => r.y) p q.y h⟩

/-- The tight bounding box is sorted: `x0 ≤ x1` and `y0 ≤ y1` (in `ℚ`). -/
theorem bounding_box_sorted (path : BezPath) :
    (bounding_box path).x0.toRat ≤ (bounding_box path).x1.toRat ∧
    (bounding_box path).y0.toRat ≤ (bounding_box path).y1.toRat := by
  rcases hq : BezPath.points path with _ | ⟨q, qs⟩
  · simp only [bounding_box, hq]
    exact ⟨le_refl _, le_refl _⟩
  · simp only [bounding_box, hq]
    exact ⟨le_trans (foldl_min_le qs (fun r => r.x) q.x)
             (le_foldl_max qs (fun r => r.x) q.x),
           le_trans (foldl_min_le qs (fun r => r.y) q.y)
             (le_foldl_max qs (fun r => r.y) q.y)⟩

theorem Rect.minX_mk {a b c d : Q} (h : a.toRat ≤ c.toRat) : (Rect.mk a b c d).minX = a := by
  show (if a ≤ c then a else c) = a
  rw [if_pos (Q.le_iff.mpr h)]

theorem Rect.maxX_mk {a b c d : Q} (h : a.toRat ≤ c.toRat) : (Rect.mk a b c d).maxX = c := by
  show (if a ≤ c then c else a) = c
  rw [if_pos (Q.le_iff.mpr h)]

theorem Rect.minY_mk {a b c d : Q} (h : b.toRat ≤ d.toRat) : (Rect.mk a b c d).minY = b := by
  show (if b ≤ d then b else d) = b
  rw [if_pos (Q.le_iff.mpr h)]

theorem Rect.maxY_mk {a b c d : Q} (h : b.toRat ≤ d.toRat) : (Rect.mk a b c d).maxY = d := by
  show (if b ≤ d then d else b) = d
  rw [if_pos (Q.le_iff.mpr h)]

theorem intRange_eq_nil {lo hi : ℤ} (h : hi ≤ lo) : intRange lo hi = [] := by
  unfold intRange
  have h0 : (hi - lo).toNat = 0 := by omega
  rw [h0]
  rfl

theorem flatMap_nil_of {α β : Type _} (l : List α) (f : α → List β)
    (h : ∀ a, f a = []) : l.flatMap f = [] := by
  induction l with
  | nil => rfl
  | cons a l ih =>
    rw [List.flatMap_cons, h a, ih]
    rfl

theorem Q.asI32_floor (a : Q) : a.floor.asI32 = a.floorInt := Q.asI32_ofInt _

theorem Q.asI32_ceil (a : Q) : a.ceil.asI32 = a.ceilInt := Q.asI32_ofInt _

theorem Rect.minX_toRat_le_maxX (r : Rect) : r.minX.toRat ≤ r.maxX.toRat := by
  rw [show r.minX = min r.x0 r.x1 from rfl, show r.maxX = max r.x0 r.x1 from rfl,
    Q.toRat_min, Q.toRat_max]
  exact min_le_max

theorem Rect.minY_toRat_le_maxY (r : Rect) : r.minY.toRat ≤ r.maxY.toRat := by
  rw [show r.minY = min r.y0 r.y1 from rfl, show r.maxY = max r.y0 r.y1 from rfl,
    Q.toRat_min, Q.toRat_max]
  exact min_le_max

theorem floor_toRat_le_ceil {a b : Q} (h : a.toRat ≤ b.toRat) :
    a.floor.toRat ≤ b.ceil.toRat := by
  rw [Q.toRat_floor, Q.toRat_ceil]
  have h1 : (⌊a.toRat⌋ : ℚ) ≤ a.toRat := Int.floor_le _
  have h2 : b.toRat ≤ (⌈b.toRat⌉ : ℚ) := Int.le_ceil _
  linarith

/-- The loop bounds of `compute_winding_a_lot` resolved: the floor/ceil rect is sorted, so
its `min_x`/`max_x` accessors return the floored minimum and ceiled maximum, and the `as
i32` casts are the integer floor/ceil of the tight bounding box. -/
theorem sampledPoints_eq (g : Glyph) :
    sampledPoints g =
      (intRange (bounding_box g.bezpath).minX.floorInt
          (bounding_box g.bezpath).maxX.ceilInt).flatMap fun x =>
        (intRange (bounding_box g.bezpath).minY.floorInt
            (bounding_box g.bezpath).maxY.ceilInt).map fun y => (x, y) := by
  have hx : (bounding_box g.bezpath).minX.floor.toRat ≤
      (bounding_box g.bezpath).maxX.ceil.toRat :=
    floor_toRat_le_ceil (Rect.minX_toRat_le_maxX (bounding_box g.bezpath))
  have hy : (bounding_box g.bezpath).minY.floor.toRat ≤
      (bounding_box g.bezpath).maxY.ceil.toRat :=
    floor_toRat_le_ceil (Rect.minY_toRat_le_maxY (bounding_box g.bezpath))
  simp only [sampledPoints]
  rw [Rect.minX_mk hx, Rect.maxX_mk hx, Rect.minY_mk hy, Rect.maxY_mk hy,
    Q.asI32_floor, Q.asI32_ceil, Q.asI32_floor, Q.asI32_ceil]

theorem mem_pairGrid {l1 l2 : List ℤ} {x y : ℤ} :
    (x, y) ∈ (l1.flatMap fun a => l2.map fun b => (a, b)) ↔ x ∈ l1 ∧ y ∈ l2 := by
  rw [List.mem_flatMap]
  constructor
  · rintro ⟨a, ha, hmem⟩
    obtain ⟨b, hb, heq⟩ := List.mem_map.mp hmem
    cases heq
    exact ⟨ha, hb⟩
  · rintro ⟨hx, hy⟩
    exact ⟨x, hx, List.mem_map.mpr ⟨y, hy, rfl⟩⟩

/-! ## Claim C10 -/

/-- C10: for every glyph whose integer-rounded bounding box is degenerate — the ceiled
maximum not exceeding the floored minimum on some axis, after conversion to `i32` — the
sampling winding detector returns `false` and its sample grid is empty, so the winding
number is never evaluated at any point. -/
theorem claim_C10_degenerate_box (g : Glyph)
    (h : (bounding_box g.bezpath).maxX.ceil.asI32 ≤ (bounding_box g.bezpath).minX.floor.asI32
       ∨ (bounding_box g.bezpath).maxY.ceil.asI32 ≤
           (bounding_box g.bezpath).minY.floor.asI32) :
    compute_winding_a_lot g = false ∧ sampledPoints g = [] := by
  rw [Q.asI32_ceil, Q.asI32_floor, Q.asI32_ceil, Q.asI32_floor] at h
  have hsp : sampledPoints g = [] := by
    rw [sampledPoints_eq]
    rcases h with h | h
    · rw [intRange_eq_nil h]
      rfl
    · exact flatMap_nil_of _ _ fun x => by rw [intRange_eq_nil h]; rfl
  refine ⟨?_, hsp⟩
  rw [compute_winding_eq_sampled, hsp]
  rfl

/-- A degenerate glyph: a closed vertical segment with zero-width bounding box. -/
def vlineGlyph : Glyph :=
  ⟨"vline", "vline.glif", [PathEl.moveTo ⟨0, 0⟩, PathEl.lineTo ⟨0, 5⟩, PathEl.closePath]⟩

theorem claim_C10_witness :
    compute_winding_a_lot vlineGlyph = false ∧ sampledPoints vlineGlyph = [] :=
  claim_C10_degenerate_box vlineGlyph (Or.inl (by decide))

/-! ## Claim C1 -/

/-- The claim's sampling region: integer points strictly inside the margin-expanded
viewbox — the region the raster strategy analyzes (`create_svg`'s viewbox; the fill rule
does not affect it). -/
def strictlyInsideViewbox (g : Glyph) (x y : ℤ) : Prop :=
  (create_svg g FillRule.nonZero).1.minX < Q.ofInt x ∧
  Q.ofInt x < (create_svg g FillRule.nonZero).1.maxX ∧
  (create_svg g FillRule.nonZero).1.minY < Q.ofInt y ∧
  Q.ofInt y < (create_svg g FillRule.nonZero).1.maxY

instance (g : Glyph) (x y : ℤ) : Decidable (strictlyInsideViewbox g x y) := by
  unfold strictlyInsideViewbox
  infer_instance

/-- C1 counterexample: the point `(3,3)` lies strictly inside the margin-expanded viewbox
of the test square (the region the raster strategy analyzes, here `[-1,4] × [-1,4]`), yet
the sampling winding detector never samples it: its grid is the floor/ceil of the
*unexpanded* tight bounding box, `[0,3) × [0,3)`. The claim is false for this glyph. -/
theorem claim_C1_counterexample :
    strictlyInsideViewbox ccwSquare 3 3 ∧ (3, 3) ∉ sampledPoints ccwSquare :=
  ⟨⟨by decide, by decide, by decide, by decide⟩, by decide⟩

/-- C1 (amended): the sampling winding detector samples exactly the integer points of
`[⌊min x⌋, ⌈max x⌉) × [⌊min y⌋, ⌈max y⌉)` over the *tight* (not margin-expanded) bounding
box, and returns `true` iff some sampled point shows a mismatch between the `winding != 0`
and `winding % 2 == 1` classifications (equivalently: it short-circuits at the first such
point, else returns `false` after exhausting the grid). -/
theorem claim_C1_amended (g : Glyph) :
    (∀ x y : ℤ,
      ((x, y) ∈ sampledPoints g ↔
        ((bounding_box g.bezpath).minX.floorInt ≤ x ∧
         x < (bounding_box g.bezpath).maxX.ceilInt ∧
         (bounding_box g.bezpath).minY.floorInt ≤ y ∧
         y < (bounding_box g.bezpath).maxY.ceilInt))) ∧
    (compute_winding_a_lot g = true ↔
      ∃ q ∈ sampledPoints g, windingMismatch g.bezpath q.1 q.2 = true) := by
  constructor
  · intro x y
    rw [sampledPoints_eq, mem_pairGrid, mem_intRange, mem_intRange]
    tauto
  · rw [compute_winding_eq_sampled, List.any_eq_true]

theorem claim_C1_amended_witness : compute_winding_a_lot cwSquare = true :=
  (claim_C1_amended cwSquare).2.mpr ⟨(1, 1), by decide, by decide⟩

/-! ## Claim C2 -/

/-- C2 (code bug): the source computes the even-odd classification as `winding % 2 == 1`
with Rust's truncated remainder, so a *negative* odd winding number (here `-1`, produced
at every interior point of a clockwise contour) is classified as even-odd-*outside* even
though it is odd — contradicting the spec's "even-odd-rule inside ⟺ value is odd" — and
the detector consequently reports a spurious discrepancy for a plain clockwise square
while reporting none for its counter-clockwise mirror. -/
theorem claim_C2_negative_odd_bug :
    cwSquare.bezpath.winding ⟨Q.ofInt 1, Q.ofInt 1⟩ = -1 ∧
    Odd (-1 : ℤ) ∧
    (Int.tmod (-1 : ℤ) 2 == 1) = false ∧
    windingMismatch cwSquare.bezpath 1 1 = true ∧
    compute_winding_a_lot cwSquare = true ∧
    compute_winding_a_lot ccwSquare = false :=
  ⟨by decide, ⟨-1, by norm_num⟩, by decide, by decide, by decide, by decide⟩

/-! ## Claims C7 and C5: the raster viewbox and coordinate frame -/

theorem Q.mk_eq_of_fields {a b : Q} (hn : a.num = b.num) (hd : a.den = b.den) : a = b := by
  cases a
  cases b
  cases hn
  cases hd
  rfl

theorem Q.sub_ofInt (a b : ℤ) : Q.ofInt a - Q.ofInt b = Q.ofInt (a - b) :=
  Q.mk_eq_of_fields (by show a * 1 - b * 1 = a - b; ring) (by show (1 : ℤ) * 1 = 1; ring)

theorem Rect.minX_toRat (r : Rect) : r.minX.toRat = min r.x0.toRat r.x1.toRat :=
  Q.toRat_min r.x0 r.x1

theorem Rect.maxX_toRat (r : Rect) : r.maxX.toRat = max r.x0.toRat r.x1.toRat :=
  Q.toRat_max r.x0 r.x1

theorem Rect.minY_toRat (r : Rect) : r.minY.toRat = min r.y0.toRat r.y1.toRat :=
  Q.toRat_min r.y0 r.y1

theorem Rect.maxY_toRat (r : Rect) : r.maxY.toRat = max r.y0.toRat r.y1.toRat :=
  Q.toRat_max r.y0 r.y1

theorem qTenth_toRat : qTenth.toRat = 1 / 10 := by
  norm_num [qTenth, Q.toRat]

/-- The viewbox of `create_svg`, written out; it does not depend on the fill rule. -/
theorem create_svg_viewbox (g : Glyph) (rule : FillRule) :
    (create_svg g rule).1 =
      ⟨((bounding_box g.bezpath).minX -
          max (bounding_box g.bezpath).width (bounding_box g.bezpath).height * qTenth).floor,
       ((bounding_box g.bezpath).minY -
          max (bounding_box g.bezpath).width (bounding_box g.bezpath).height * qTenth).floor,
       ((bounding_box g.bezpath).maxX +
          max (bounding_box g.bezpath).width (bounding_box g.bezpath).height * qTenth).ceil,
       ((bounding_box g.bezpath).maxY +
          max (bounding_box g.bezpath).width (bounding_box g.bezpath).height * qTenth).ceil⟩ :=
  rfl

/-- The margin is non-negative: the tight bounding box is sorted, so both dimensions are
non-negative, and `0.1` is positive. -/
theorem margin_nonneg (g : Glyph) :
    0 ≤ (max (bounding_box g.bezpath).width (bounding_box g.bezpath).height * qTenth).toRat := by
  rw [Q.toRat_mul, Q.toRat_max, qTenth_toRat]
  have hw : 0 ≤ (bounding_box g.bezpath).width.toRat := by
    have hs := (bounding_box_sorted g.bezpath).1
    rw [show (bounding_box g.bezpath).width =
        (bounding_box g.bezpath).x1 - (bounding_box g.bezpath).x0 from rfl, Q.toRat_sub]
    linarith
  have : (0 : ℚ) ≤ max (bounding_box g.bezpath).width.toRat
      (bounding_box g.bezpath).height.toRat :=
    le_trans hw (le_max_left _ _)
  linarith

/-- The margin-expanded viewbox encloses every control and end point of the path. -/
theorem viewbox_frame (g : Glyph) (rule : FillRule) (p : Pt)
    (hp : p ∈ BezPath.points g.bezpath) :
    (create_svg g rule).1.x0.toRat ≤ p.x.toRat ∧
    p.x.toRat ≤ (create_svg g rule).1.x1.toRat ∧
    (create_svg g rule).1.y0.toRat ≤ p.y.toRat ∧
    p.y.toRat ≤ (create_svg g rule).1.y1.toRat := by
  obtain ⟨h1, h2, h3, h4⟩ := bounding_box_bounds g.bezpath p hp
  have hm := margin_nonneg g
  have hminX : (bounding_box g.bezpath).minX.toRat ≤ p.x.toRat := by
    rw [Rect.minX_toRat]
    exact le_trans (min_le_left _ _) h1
  have hmaxX : p.x.toRat ≤ (bounding_box g.bezpath).maxX.toRat := by
    rw [Rect.maxX_toRat]
    exact le_trans h2 (le_max_right _ _)
  have hminY : (bounding_box g.bezpath).minY.toRat ≤ p.y.toRat := by
    rw [Rect.minY_toRat]
    exact le_trans (min_le_left _ _) h3
  have hmaxY : p.y.toRat ≤ (bounding_box g.bezpath).maxY.toRat := by
    rw [Rect.maxY_toRat]
    exact le_trans h4 (le_max_right _ _)
  rw [create_svg_viewbox]
  refine ⟨?_, ?_, ?_, ?_⟩
  · show ((bounding_box g.bezpath).minX -
        max (bounding_box g.bezpath).width (bounding_box g.bezpath).height * qTenth).floor.toRat
        ≤ p.x.toRat
    rw [Q.toRat_floor]
    have hfl := Int.floor_le (((bounding_box g.bezpath).minX -
      max (bounding_box g.bezpath).width (bounding_box g.bezpath).height * qTenth).toRat)
    have heq := Q.toRat_sub (bounding_box g.bezpath).minX
      (max (bounding_box g.bezpath).width (bounding_box g.bezpath).height * qTenth)
    linarith
  · show p.x.toRat ≤ ((bounding_box g.bezpath).maxX +
        max (bounding_box g.bezpath).width (bounding_box g.bezpath).height * qTenth).ceil.toRat
    rw [Q.toRat_ceil]
    have hcl := Int.le_ceil (((bounding_box g.bezpath).maxX +
      max (bounding_box g.bezpath).width (bounding_box g.bezpath).height * qTenth).toRat)
    have heq := Q.toRat_add (bounding_box g.bezpath).maxX
      (max (bounding_box g.bezpath).width (bounding_box g.bezpath).height * qTenth)
    linarith
  · show ((bounding_box g.bezpath).minY -
        max (bounding_box g.bezpath).width (bounding_box g.bezpath).height * qTenth).floor.toRat
        ≤ p.y.toRat
    rw [Q.toRat_floor]
    have hfl := Int.floor_le (((bounding_box g.bezpath).minY -
      max (bounding_box g.bezpath).width (bounding_box g.bezpath).height * qTenth).toRat)
    have heq := Q.toRat_sub (bounding_box g.bezpath).minY
      (max (bounding_box g.bezpath).width (bounding_box g.bezpath).height * qTenth)
    linarith
  · show p.y.toRat ≤ ((bounding_box g.bezpath).maxY +
        max (bounding_box g.bezpath).width (bounding_box g.bezpath).height * qTenth).ceil.toRat
    rw [Q.toRat_ceil]
    have hcl := Int.le_ceil (((bounding_box g.bezpath).maxY +
      max (bounding_box g.bezpath).width (bounding_box g.bezpath).height * qTenth).toRat)
    have heq := Q.toRat_add (bounding_box g.bezpath).maxY
      (max (bounding_box g.bezpath).width (bounding_box g.bezpath).height * qTenth)
    linarith

/-- The margin of `create_svg`: 10% of the larger dimension of the tight bounding box. -/
def svgMargin (g : Glyph) : Q :=
  max (bounding_box g.bezpath).width (bounding_box g.bezpath).height * qTenth

/-- `create_svg`'s viewbox, via `svgMargin`. -/
theorem create_svg_viewbox_margin (g : Glyph) (rule : FillRule) :
    (create_svg g rule).1 =
      ⟨((bounding_box g.bezpath).minX - svgMargin g).floor,
       ((bounding_box g.bezpath).minY - svgMargin g).floor,
       ((bounding_box g.bezpath).maxX + svgMargin g).ceil,
       ((bounding_box g.bezpath).maxY + svgMargin g).ceil⟩ :=
  rfl

theorem svgMargin_nonneg (g : Glyph) : 0 ≤ (svgMargin g).toRat := margin_nonneg g

/-- The viewbox width is a non-negative integer (as a `Q` value). -/
theorem viewbox_width_int (g : Glyph) (rule : FillRule) :
    ∃ n : ℤ, 0 ≤ n ∧ (create_svg g rule).1.width = Q.ofInt n := by
  refine ⟨((bounding_box g.bezpath).maxX + svgMargin g).ceilInt -
    ((bounding_box g.bezpath).minX - svgMargin g).floorInt, ?_, ?_⟩
  · have hm := svgMargin_nonneg g
    have hs := Rect.minX_toRat_le_maxX (bounding_box g.bezpath)
    have hAB : ((bounding_box g.bezpath).minX - svgMargin g).toRat ≤
        ((bounding_box g.bezpath).maxX + svgMargin g).toRat := by
      rw [Q.toRat_sub, Q.toRat_add]
      linarith
    have hfc : (((bounding_box g.bezpath).minX - svgMargin g).floorInt : ℚ) ≤
        (((bounding_box g.bezpath).maxX + svgMargin g).ceilInt : ℚ) := by
      rw [Q.floorInt_eq, Q.ceilInt_eq]
      have h1 := Int.floor_le ((bounding_box g.bezpath).minX - svgMargin g).toRat
      have h2 := Int.le_ceil ((bounding_box g.bezpath).maxX + svgMargin g).toRat
      push_cast at h1 h2
      linarith
    have : ((bounding_box g.bezpath).minX - svgMargin g).floorInt ≤
        ((bounding_box g.bezpath).maxX + svgMargin g).ceilInt := by exact_mod_cast hfc
    omega
  · rw [create_svg_viewbox_margin]
    exact Q.sub_ofInt _ _

/-- The viewbox height is a non-negative integer (as a `Q` value). -/
theorem viewbox_height_int (g : Glyph) (rule : FillRule) :
    ∃ n : ℤ, 0 ≤ n ∧ (create_svg g rule).1.height = Q.ofInt n := by
  refine ⟨((bounding_box g.bezpath).maxY + svgMargin g).ceilInt -
    ((bounding_box g.bezpath).minY - svgMargin g).floorInt, ?_, ?_⟩
  · have hm := svgMargin_nonneg g
    have hs := Rect.minY_toRat_le_maxY (bounding_box g.bezpath)
    have hAB : ((bounding_box g.bezpath).minY - svgMargin g).toRat ≤
        ((bounding_box g.bezpath).maxY + svgMargin g).toRat := by
      rw [Q.toRat_sub, Q.toRat_add]
      linarith
    have hfc : (((bounding_box g.bezpath).minY - svgMargin g).floorInt : ℚ) ≤
        (((bounding_box g.bezpath).maxY + svgMargin g).ceilInt : ℚ) := by
      rw [Q.floorInt_eq, Q.ceilInt_eq]
      have h1 := Int.floor_le ((bounding_box g.bezpath).minY - svgMargin g).toRat
      have h2 := Int.le_ceil ((bounding_box g.bezpath).maxY + svgMargin g).toRat
      push_cast at h1 h2
      linarith
    have : ((bounding_box g.bezpath).minY - svgMargin g).floorInt ≤
        ((bounding_box g.bezpath).maxY + svgMargin g).ceilInt := by exact_mod_cast hfc
    omega
  · rw [create_svg_viewbox_margin]
    exact Q.sub_ofInt _ _

theorem Q.asU32_toRat_ofInt {n : ℤ} (h : 0 ≤ n) :
    (((Q.ofInt n).asU32 : ℕ) : ℚ) = (Q.ofInt n).toRat := by
  rw [Q.toRat_ofInt]
  show (((Q.ofInt n).asI32.toNat : ℕ) : ℚ) = (n : ℚ)
  rw [Q.asI32_ofInt]
  have hn : (n.toNat : ℤ) = n := Int.toNat_of_nonneg h
  exact_mod_cast hn

/-- C7: for every path, `create_svg`'s viewbox equals the tight bounding box expanded
outward by a margin of 10% of the larger dimension, with minima floored and maxima ceiled;
the resulting box has non-negative width and height and fully encloses the source path
(every control and end point). -/
theorem claim_C7_bounding_box (g : Glyph) (rule : FillRule) :
    (create_svg g rule).1 =
      ⟨((bounding_box g.bezpath).minX - svgMargin g).floor,
       ((bounding_box g.bezpath).minY - svgMargin g).floor,
       ((bounding_box g.bezpath).maxX + svgMargin g).ceil,
       ((bounding_box g.bezpath).maxY + svgMargin g).ceil⟩ ∧
    0 ≤ (create_svg g rule).1.width.toRat ∧
    0 ≤ (create_svg g rule).1.height.toRat ∧
    ∀ p ∈ BezPath.points g.bezpath,
      (create_svg g rule).1.x0.toRat ≤ p.x.toRat ∧
      p.x.toRat ≤ (create_svg g rule).1.x1.toRat ∧
      (create_svg g rule).1.y0.toRat ≤ p.y.toRat ∧
      p.y.toRat ≤ (create_svg g rule).1.y1.toRat := by
  refine ⟨create_svg_viewbox_margin g rule, ?_, ?_, fun p hp => viewbox_frame g rule p hp⟩
  · obtain ⟨n, hn, hw⟩ := viewbox_width_int g rule
    rw [hw, Q.toRat_ofInt]
    exact_mod_cast hn
  · obtain ⟨n, hn, hw⟩ := viewbox_height_int g rule
    rw [hw, Q.toRat_ofInt]
    exact_mod_cast hn

theorem claim_C7_witness :
    (0 : ℚ) ≤ (create_svg ccwSquare FillRule.nonZero).1.width.toRat ∧
    (create_svg ccwSquare FillRule.nonZero).1.x0.toRat ≤ (0 : Q).toRat := by
  have h := claim_C7_bounding_box ccwSquare FillRule.nonZero
  exact ⟨h.2.1, (h.2.2.2 ⟨0, 0⟩ (by decide)).1⟩

/-! ## Claim C5 -/

/-- Modelled from the spec (§4.5): the transform the SVG viewBox induces on the path —
the translation taking the viewbox's min corner to the pixel origin, so "pixel coordinates
start at the origin". -/
def viewboxShift (vb : Rect) (p : Pt) : Pt := ⟨p.x - vb.x0, p.y - vb.y0⟩

/-- C5: the raster detector's two renders use the same viewbox (it does not depend on the
fill rule), hence identical pixel dimensions and transform; the pixel dimensions are the
integer width/height of the viewbox; and under the viewbox transform every path point
lands in the non-negative frame `[0, width] × [0, height]`. -/
theorem claim_C5_raster_frame (g : Glyph) :
    ((create_svg g FillRule.evenOdd).1 = (create_svg g FillRule.nonZero).1) ∧
    ((create_svg g FillRule.evenOdd).1.width.asU32 =
        (create_svg g FillRule.nonZero).1.width.asU32 ∧
     (create_svg g FillRule.evenOdd).1.height.asU32 =
        (create_svg g FillRule.nonZero).1.height.asU32) ∧
    (((create_svg g FillRule.nonZero).1.width.asU32 : ℚ) =
        (create_svg g FillRule.nonZero).1.width.toRat ∧
     ((create_svg g FillRule.nonZero).1.height.asU32 : ℚ) =
        (create_svg g FillRule.nonZero).1.height.toRat) ∧
    ∀ p ∈ BezPath.points g.bezpath,
      0 ≤ (viewboxShift (create_svg g FillRule.nonZero).1 p).x.toRat ∧
      (viewboxShift (create_svg g FillRule.nonZero).1 p).x.toRat ≤
        ((create_svg g FillRule.nonZero).1.width.asU32 : ℚ) ∧
      0 ≤ (viewboxShift (create_svg g FillRule.nonZero).1 p).y.toRat ∧
      (viewboxShift (create_svg g FillRule.nonZero).1 p).y.toRat ≤
        ((create_svg g FillRule.nonZero).1.height.asU32 : ℚ) := by
  obtain ⟨nw, hnw, hw⟩ := viewbox_width_int g FillRule.nonZero
  obtain ⟨nh, hnh, hh⟩ := viewbox_height_int g FillRule.nonZero
  have hwi : ((create_svg g FillRule.nonZero).1.width.asU32 : ℚ) =
      (create_svg g FillRule.nonZero).1.width.toRat := by
    rw [hw]
    exact Q.asU32_toRat_ofInt hnw
  have hhi : ((create_svg g FillRule.nonZero).1.height.asU32 : ℚ) =
      (create_svg g FillRule.nonZero).1.height.toRat := by
    rw [hh]
    exact Q.asU32_toRat_ofInt hnh
  refine ⟨rfl, ⟨rfl, rfl⟩, ⟨hwi, hhi⟩, fun p hp => ?_⟩
  obtain ⟨h1, h2, h3, h4⟩ := viewbox_frame g FillRule.nonZero p hp
  have hsx : (viewboxShift (create_svg g FillRule.nonZero).1 p).x.toRat =
      p.x.toRat - (create_svg g FillRule.nonZero).1.x0.toRat := Q.toRat_sub _ _
  have hsy : (viewboxShift (create_svg g FillRule.nonZero).1 p).y.toRat =
      p.y.toRat - (create_svg g FillRule.nonZero).1.y0.toRat := Q.toRat_sub _ _
  have hwv : (create_svg g FillRule.nonZero).1.width.toRat =
      (create_svg g FillRule.nonZero).1.x1.toRat -
        (create_svg g FillRule.nonZero).1.x0.toRat := Q.toRat_sub _ _
  have hhv : (create_svg g FillRule.nonZero).1.height.toRat =
      (create_svg g FillRule.nonZero).1.y1.toRat -
        (create_svg g FillRule.nonZero).1.y0.toRat := Q.toRat_sub _ _
  refine ⟨by linarith, ?_, by linarith, ?_⟩
  · rw [hwi, hwv, hsx]
    linarith
  · rw [hhi, hhv, hsy]
    linarith

theorem claim_C5_witness :
    (create_svg vlineGlyph FillRule.evenOdd).1 = (create_svg vlineGlyph FillRule.nonZero).1 ∧
    0 ≤ (viewboxShift (create_svg vlineGlyph FillRule.nonZero).1 ⟨0, 0⟩).x.toRat :=
  ⟨(claim_C5_raster_frame vlineGlyph).1,
   ((claim_C5_raster_frame vlineGlyph).2.2.2 ⟨0, 0⟩ (by decide)).1⟩

/-! ## Claims C4, C6, C8: the raster diff detector -/

theorem markDiffs_fst_iff (pink : Pixel) :
    ∀ xs ys : List Pixel, xs.length = ys.length →
      ((markDiffs pink xs ys).1 = true ↔ xs ≠ ys) := by
  intro xs
  induction xs with
  | nil =>
    intro ys h
    cases ys with
    | nil => simp [markDiffs]
    | cons y ys => cases h
  | cons x xs ih =>
    intro ys h
    cases ys with
    | nil => cases h
    | cons y ys =>
      have hlen : xs.length = ys.length := by simpa using h
      show ((if x ≠ y then (true, pink :: (markDiffs pink xs ys).2)
             else ((markDiffs pink xs ys).1, x :: (markDiffs pink xs ys).2)).1 = true ↔
            x :: xs ≠ y :: ys)
      by_cases hxy : x = y
      · rw [if_neg (by simp [hxy])]
        show ((markDiffs pink xs ys).1 = true ↔ _)
        rw [ih ys hlen]
        subst hxy
        simp
      · rw [if_pos hxy]
        constructor
        · intro _ hc
          injection hc with h1 h2
          exact hxy h1
        · intro _
          rfl

theorem markDiffs_fst_eq_decide (pink : Pixel) (xs ys : List Pixel)
    (h : xs.length = ys.length) : (markDiffs pink xs ys).1 = decide (xs ≠ ys) := by
  have hiff := markDiffs_fst_iff pink xs ys h
  by_cases hxy : xs = ys
  · have hne : (markDiffs pink xs ys).1 ≠ true := fun hc => (hiff.mp hc) hxy
    simp only [Bool.not_eq_true] at hne
    rw [hne, hxy]
    simp
  · rw [hiff.mpr hxy]
    simp [hxy]

/-- `render_no_aa`, written as a single match on the pixmap allocation. -/
theorem render_no_aa_eq (r : Renderer) (g : Glyph) (rule : FillRule) :
    render_no_aa r g rule =
      match Pixmap.new (create_svg g rule).1.width.asU32 (create_svg g rule).1.height.asU32
        with
      | none => Except.error "Unable to create pixmap"
      | some pixmap => Except.ok (r (create_svg g rule).2 pixmap) :=
  rfl

/-- `render_no_aa` fails only with the pixmap-creation panic. -/
theorem render_no_aa_error (r : Renderer) (g : Glyph) (rule : FillRule) (e : String)
    (h : render_no_aa r g rule = Except.error e) : e = "Unable to create pixmap" := by
  rw [render_no_aa_eq] at h
  cases hpm : Pixmap.new (create_svg g rule).1.width.asU32 (create_svg g rule).1.height.asU32
    with
  | none =>
    simp only [hpm] at h
    injection h with h1
    exact h1.symm
  | some pm =>
    simp only [hpm] at h
    cases h

/-- `image_diff` given both renders and equal pixel counts. -/
theorem image_diff_eq_ok (r : Renderer) (g : Glyph) (ev nz : Pixmap)
    (hev : render_no_aa r g FillRule.evenOdd = Except.ok ev)
    (hnz : render_no_aa r g FillRule.nonZero = Except.ok nz)
    (hlen : ev.pixels.length = nz.pixels.length) :
    image_diff r g = Except.ok (markDiffs pinkPx ev.pixels nz.pixels).1 := by
  unfold image_diff image_diff_impl
  simp only [hev, hnz]
  rw [if_neg (by simp [hlen])]

/-- Under the renderer contract the two pixel buffers have the same length: the two
renders draw into pixmaps allocated from the same (fill-rule-independent) viewbox. -/
theorem render_dims_match (r : Renderer)
    (hr : ∀ svg pm, (r svg pm).pixels.length = pm.pixels.length) (g : Glyph)
    (ev nz : Pixmap)
    (hev : render_no_aa r g FillRule.evenOdd = Except.ok ev)
    (hnz : render_no_aa r g FillRule.nonZero = Except.ok nz) :
    ev.pixels.length = nz.pixels.length := by
  rw [render_no_aa_eq] at hev hnz
  have hvb : (create_svg g FillRule.evenOdd).1 = (create_svg g FillRule.nonZero).1 := rfl
  rw [hvb] at hev
  cases hpm : Pixmap.new (create_svg g FillRule.nonZero).1.width.asU32
      (create_svg g FillRule.nonZero).1.height.asU32 with
  | none =>
    simp only [hpm] at hev
    cases hev
  | some pm =>
    simp only [hpm] at hev hnz
    injection hev with h1
    injection hnz with h2
    rw [← h1, ← h2, hr, hr]

/-- C4: given the two renders (even-odd first, nonzero second) with equal pixel counts,
`image_diff` returns `true` iff the two coverage buffers differ at some pixel, and `false`
iff they are identical. -/
theorem claim_C4_pixel_diff (r : Renderer) (g : Glyph) (ev nz : Pixmap)
    (hev : render_no_aa r g FillRule.evenOdd = Except.ok ev)
    (hnz : render_no_aa r g FillRule.nonZero = Except.ok nz)
    (hlen : ev.pixels.length = nz.pixels.length) :
    (image_diff r g = Except.ok true ↔ ev.pixels ≠ nz.pixels) ∧
    (image_diff r g = Except.ok false ↔ ev.pixels = nz.pixels) := by
  rw [image_diff_eq_ok r g ev nz hev hnz hlen,
    markDiffs_fst_eq_decide pinkPx ev.pixels nz.pixels hlen]
  constructor
  · simp
  · simp

/-- The 5×5 transparent pixmap allocated for the test squares' viewbox `[-1,4]²`. -/
def blank25 : Pixmap := ⟨5, 5, List.replicate 25 ⟨0, 0, 0, 0⟩⟩

theorem claim_C4_witness : image_diff idRenderer ccwSquare = Except.ok false :=
  (claim_C4_pixel_diff idRenderer ccwSquare blank25 blank25 (by decide) (by decide)
    rfl).2.mpr rfl

/-- C6: `image_diff` signals the inconsistent-pixel-count panic exactly when the two
renders produce differently sized buffers, and — because both renders draw into pixmaps
allocated from the same glyph's viewbox — a renderer that preserves buffer sizes (the
spec's Renderer contract) can never trigger it. -/
theorem claim_C6_mask_dimensions :
    (∀ (r : Renderer) (g : Glyph) (ev nz : Pixmap),
       render_no_aa r g FillRule.evenOdd = Except.ok ev →
       render_no_aa r g FillRule.nonZero = Except.ok nz →
       (image_diff r g = Except.error "Inconsistent pixel count, seems very bad" ↔
         ev.pixels.length ≠ nz.pixels.length)) ∧
    (∀ r : Renderer, (∀ svg pm, (r svg pm).pixels.length = pm.pixels.length) →
       ∀ g : Glyph,
         image_diff r g ≠ Except.error "Inconsistent pixel count, seems very bad") := by
  constructor
  · intro r g ev nz hev hnz
    unfold image_diff image_diff_impl
    simp only [hev, hnz]
    by_cases hlen : ev.pixels.length = nz.pixels.length
    · rw [if_neg (by simp [hlen])]
      simp [hlen]
    · rw [if_pos (by simpa using hlen)]
      simp [hlen]
  · intro r hr g
    cases hev : render_no_aa r g FillRule.evenOdd with
    | error e =>
      have he := render_no_aa_error r g FillRule.evenOdd e hev
      unfold image_diff image_diff_impl
      simp only [hev, he]
      simp
    | ok ev =>
      cases hnz : render_no_aa r g FillRule.nonZero with
      | error e =>
        have he := render_no_aa_error r g FillRule.nonZero e hnz
        unfold image_diff image_diff_impl
        simp only [hev, hnz, he]
        simp
      | ok nz =>
        have hlen := render_dims_match r hr g ev nz hev hnz
        rw [image_diff_eq_ok r g ev nz hev hnz hlen]
        simp

/-- A renderer that violates the size contract: it drops every pixel of the nonzero
render (it returns an empty buffer whenever the SVG asks for the nonzero fill rule). -/
def sizeViolatingRenderer : Renderer := fun svg pm =>
  if svg = (create_svg ccwSquare FillRule.nonZero).2 then { pm with pixels := [] } else pm

theorem claim_C6_witness :
    image_diff sizeViolatingRenderer ccwSquare =
      Except.error "Inconsistent pixel count, seems very bad" :=
  ((claim_C6_mask_dimensions.1 sizeViolatingRenderer ccwSquare blank25
      { blank25 with pixels := [] } (by decide) (by decide)).mpr (by decide))

/-- C8: the diagnostic artifact has no effect on the returned boolean — the debug-image
flag changes only the artifact component of `image_diff_impl`'s result — and the boolean
equals whether the two original, unmodified renders differ at any pixel. -/
theorem claim_C8_artifact_no_effect (s1 s2 : Bool) (r : Renderer) (g : Glyph) :
    ((image_diff_impl s1 r g).map Prod.fst = (image_diff_impl s2 r g).map Prod.fst) ∧
    (∀ ev nz : Pixmap,
      render_no_aa r g FillRule.evenOdd = Except.ok ev →
      render_no_aa r g FillRule.nonZero = Except.ok nz →
      ev.pixels.length = nz.pixels.length →
      image_diff r g = Except.ok (decide (ev.pixels ≠ nz.pixels))) := by
  constructor
  · cases hev : render_no_aa r g FillRule.evenOdd with
    | error e =>
      unfold image_diff_impl
      simp only [hev]
    | ok ev =>
      cases hnz : render_no_aa r g FillRule.nonZero with
      | error e =>
        unfold image_diff_impl
        simp only [hev, hnz]
      | ok nz =>
        unfold image_diff_impl
        simp only [hev, hnz]
        by_cases hlen : ev.pixels.length ≠ nz.pixels.length
        · rw [if_pos hlen, if_pos hlen]
        · rw [if_neg hlen, if_neg hlen]
          rfl
  · intro ev nz hev hnz hlen
    rw [image_diff_eq_ok r g ev nz hev hnz hlen,
      markDiffs_fst_eq_decide pinkPx ev.pixels nz.pixels hlen]

theorem claim_C8_witness :
    (image_diff_impl true idRenderer cwSquare).map Prod.fst =
      (image_diff_impl false idRenderer cwSquare).map Prod.fst ∧
    image_diff idRenderer cwSquare = Except.ok (decide (blank25.pixels ≠ blank25.pixels)) :=
  ⟨(claim_C8_artifact_no_effect true false idRenderer cwSquare).1,
   (claim_C8_artifact_no_effect true false idRenderer cwSquare).2 blank25 blank25
     (by decide) (by decide) rfl⟩

/-! ## Claim C9 -/

/-- C9: both detectors are deterministic functions of the Path alone — two glyphs with
the same `bezpath` (regardless of name or source) get the same boolean from every
strategy, and in particular running a detector twice on the same Path yields an identical
result. -/
theorem claim_C9_deterministic (d : OverlapDetection) (r : Renderer) (g1 g2 : Glyph)
    (h : g1.bezpath = g2.bezpath) :
    has_fill_rule_discrepency d r g1 = has_fill_rule_discrepency d r g2 ∧
    has_fill_rule_discrepency d r g1 = has_fill_rule_discrepency d r g1 := by
  refine ⟨?_, rfl⟩
  cases d with
  | computeWindingALot =>
    show Except.ok (compute_winding_a_lot g1) = Except.ok (compute_winding_a_lot g2)
    unfold compute_winding_a_lot
    rw [h]
  | imageDiff =>
    show image_diff r g1 = image_diff r g2
    unfold image_diff image_diff_impl render_no_aa create_svg
    rw [h]
  | faceGraph => rfl

/-- The clockwise square under another name and source file. -/
def cwSquareCopy : Glyph := ⟨"cw-copy", "cw-copy.glif", cwSquare.bezpath⟩

theorem claim_C9_witness :
    has_fill_rule_discrepency OverlapDetection.computeWindingALot idRenderer cwSquare =
      has_fill_rule_discrepency OverlapDetection.computeWindingALot idRenderer cwSquareCopy :=
  (claim_C9_deterministic OverlapDetection.computeWindingALot idRenderer cwSquare
    cwSquareCopy rfl).1

/-! ## Claim C3 -/

/-- Loading aborts at the first failing file, discarding everything after it. -/
theorem loadAll_error (pre : List GlifFile) (f : GlifFile) (post : List GlifFile)
    (e : String) (hpre : ∀ x ∈ pre, (from_glif_file x).isOk = true)
    (hf : from_glif_file f = Except.error e) :
    loadAll (pre ++ f :: post) = Except.error e := by
  induction pre with
  | nil =>
    show loadAll (f :: post) = Except.error e
    unfold loadAll
    rw [hf]
  | cons x xs ih =>
    have hx := hpre x (List.mem_cons_self x xs)
    show loadAll (x :: (xs ++ f :: post)) = Except.error e
    unfold loadAll
    cases hcase : from_glif_file x with
    | error e2 =>
      rw [hcase] at hx
      cases hx
    | ok gx =>
      rw [ih fun y hy => hpre y (List.mem_cons_of_mem x hy)]

/-- C3 counterexample: the good square glyph processes fine on its own, but a batch
containing a malformed glyph returns only that glyph's panic — no per-glyph error value
and no partial results for the remaining glyphs. A detection panic (here: a degenerate
glyph whose zero-sized pixmap cannot be allocated) likewise kills the whole batch — with
a message that does not even name the glyph. -/
theorem claim_C3_counterexample :
    runBatch idRenderer [goodGlifFile] = Except.ok [] ∧
    runBatch idRenderer [badGlifFile, goodGlifFile] =
      Except.error "Error making BezPath for bad: MalformedContour" ∧
    runBatch idRenderer [⟨"dot.glif", ⟨"dot", [[⟨0, 0, PointType.move⟩]]⟩⟩, goodGlifFile] =
      Except.error "Unable to create pixmap" :=
  ⟨by decide, by decide, by decide⟩

/-- C3 (amended): a construction failure is reported through a process-terminating panic
whose message carries the offending glyph's identifier, and it aborts the entire batch:
any batch whose prefix loads cleanly and whose next file fails yields only that error,
with no results (not even partial ones) for any glyph. -/
theorem claim_C3_amended :
    (∀ (f : GlifFile) (e : String), from_glif_file f = Except.error e →
       (∃ m : String, e = "Error making BezPath for " ++ f.glif.name ++ ": " ++ m) ∨
       (∃ m : String, e = "Unable to create BezPath for " ++ f.glif.name ++ ": " ++ m)) ∧
    (∀ (r : Renderer) (pre : List GlifFile) (f : GlifFile) (post : List GlifFile)
       (e : String),
       (∀ x ∈ pre, (from_glif_file x).isOk = true) →
       from_glif_file f = Except.error e →
       runBatch r (pre ++ f :: post) = Except.error e) := by
  constructor
  · intro f e hf
    unfold from_glif_file from_glif to_bezpath at hf
    cases hfold : List.foldlM applyContour ⟨[], none, []⟩ f.glif.contours with
    | error e2 =>
      simp only [hfold] at hf
      injection hf with h1
      exact Or.inl ⟨e2.message, h1.symm⟩
    | ok st =>
      simp only [hfold] at hf
      cases hbuild : st.build with
      | error e2 =>
        simp only [hbuild] at hf
        injection hf with h1
        exact Or.inr ⟨e2.message, h1.symm⟩
      | ok bp =>
        simp only [hbuild] at hf
        cases hf
  · intro r pre f post e hpre hf
    unfold runBatch
    rw [loadAll_error pre f post e hpre hf]

theorem claim_C3_amended_witness :
    runBatch idRenderer [badGlifFile, goodGlifFile] =
      Except.error ("Error making BezPath for " ++ "bad" ++ ": " ++ "MalformedContour") :=
  claim_C3_amended.2 idRenderer [] badGlifFile [goodGlifFile]
    ("Error making BezPath for " ++ "bad" ++ ": " ++ "MalformedContour")
    (fun x hx => absurd hx (List.not_mem_nil x)) (by decide)
